import Mathlib

/-!
Shallow embedding of the PostgreSQL client relation interface
(`requires.py`): the `ConnectionString` value class with its keyword and
URI renderings, the per-relation-instance `ConnectionStrings` resolver,
and the `PostgreSQLClient` aggregate queries, together with theorems
settling the spec-level claims about them.

Relation data is modelled as association lists of strings (Juju relation
data is string-valued); a relation instance carries its remote units'
records and the local side's record.
-/

namespace PgsqlRequires

/-! ### Python string ordering (`sorted` compares strings by code point) -/

/-- Code-point lexicographic comparison of character lists, as Python
compares strings. -/
def listLtB : List Char → List Char → Bool
  | [], [] => false
  | [], _ :: _ => true
  | _ :: _, [] => false
  | a :: as, b :: bs =>
    if a.toNat < b.toNat then true
    else if b.toNat < a.toNat then false
    else listLtB as bs

/-- Python string `<`. -/
def strLtB (a b : String) : Bool := listLtB a.data b.data

/-- Insert into a list sorted by `lt`, keeping earlier elements first on
ties (stable, as Python's sort). -/
def insortBy (lt : α → α → Bool) (x : α) : List α → List α
  | [] => [x]
  | y :: rest => if lt y x then y :: insortBy lt x rest else x :: y :: rest

/-- Insertion sort by `lt` (used for `sorted(...)`; keys of a Python dict
are distinct, so key comparison alone decides the order). -/
def sortBy (lt : α → α → Bool) : List α → List α
  | [] => []
  | x :: rest => insortBy lt x (sortBy lt rest)

/-- `sorted(kw.items())` for a dict with distinct keys. -/
def sortPairs (kw : List (String × String)) : List (String × String) :=
  sortBy (fun p q => strLtB p.1 q.1) kw

/-- `sorted(keys)` for a list of strings. -/
def sortStrs (l : List String) : List String := sortBy strLtB l

/-! ### Keyword-string escaping (`quote` in `ConnectionString.__new__`) -/

/-- Replace every occurrence of the character `needle` by the character
list `rep` (Python `str.replace` with a one-character needle). -/
def replaceChar (needle : Char) (rep : List Char) : List Char → List Char
  | [] => []
  | c :: rest => (if c = needle then rep else [c]) ++ replaceChar needle rep rest

/-- `quote` from `ConnectionString.__new__`:
`str(x).replace` of a backslash by two backslashes, then of a single
quote by backslash-quote. -/
def pgQuoteL (s : List Char) : List Char :=
  replaceChar '\'' ['\\', '\''] (replaceChar '\\' ['\\', '\\'] s)

/-- `quote` on strings. -/
def pgQuote (s : String) : String := ⟨pgQuoteL s.data⟩

/-- `sep.join(tokens)` at the character-list level for a one-character
separator. -/
def joinSepC (sep : Char) : List (List Char) → List Char
  | [] => []
  | [t] => t
  | t :: rest => t ++ sep :: joinSepC sep rest

/-- `sep.join(strs)` for a one-character separator. -/
def strJoinSep (sep : Char) (l : List String) : String :=
  ⟨joinSepC sep (l.map String.data)⟩

/-- Prepend a character to the first piece of a split result. -/
def consTok (c : Char) : List (List Char) → List (List Char)
  | t :: ts => (c :: t) :: ts
  | [] => [[c]]

/-- Split at every character satisfying `p`, keeping empty pieces
(Python `str.split(sep)` semantics for a one-character separator). -/
def splitPredL (p : Char → Bool) : List Char → List (List Char)
  | [] => [[]]
  | c :: rest => if p c then [] :: splitPredL p rest else consTok c (splitPredL p rest)

/-- Python `s.split(sep)` for a one-character separator. -/
def splitOnChar (sep : Char) (s : String) : List String :=
  (splitPredL (fun c => c == sep) s.data).map fun l => (⟨l⟩ : String)

/-- The keyword/value rendering of `ConnectionString.__new__` (lines
58-62): sort the fields, render each as `key=quote(value)`, and join
with single spaces. -/
def kwRender (kw : List (String × String)) : String :=
  strJoinSep ' ' ((sortPairs kw).map fun p => ⟨p.1.data ++ '=' :: pgQuoteL p.2.data⟩)

/-! ### Percent-encoding (`urllib.parse.quote(v, safe='')`) -/

/-- UTF-8 encoding of one character, as a list of byte values. -/
def utf8Bytes (c : Char) : List Nat :=
  let n := c.toNat
  if n < 0x80 then [n]
  else if n < 0x800 then
    [0xC0 ||| (n >>> 6), 0x80 ||| (n &&& 0x3F)]
  else if n < 0x10000 then
    [0xE0 ||| (n >>> 12), 0x80 ||| ((n >>> 6) &&& 0x3F), 0x80 ||| (n &&& 0x3F)]
  else
    [0xF0 ||| (n >>> 18), 0x80 ||| ((n >>> 12) &&& 0x3F),
     0x80 ||| ((n >>> 6) &&& 0x3F), 0x80 ||| (n &&& 0x3F)]

/-- The bytes `urllib.parse.quote` never encodes (letters, digits,
`_`, `.`, `-`, `~`); with `safe=''` everything else is percent-encoded. -/
def safeByte (b : Nat) : Bool :=
  (65 ≤ b && b ≤ 90) || (97 ≤ b && b ≤ 122) || (48 ≤ b && b ≤ 57) ||
    b == 95 || b == 46 || b == 45 || b == 126

/-- Uppercase hex digit for a nibble, as `urllib.parse.quote` renders
escapes (`%XX` with uppercase hex). -/
def hexDigitUC (n : Nat) : Char :=
  match n with
  | 0 => '0' | 1 => '1' | 2 => '2' | 3 => '3' | 4 => '4'
  | 5 => '5' | 6 => '6' | 7 => '7' | 8 => '8' | 9 => '9'
  | 10 => 'A' | 11 => 'B' | 12 => 'C' | 13 => 'D' | 14 => 'E'
  | _ => 'F'

/-- Encoding of one byte by `urllib.parse.quote(_, safe='')`. -/
def pctByte (b : Nat) : List Char :=
  if safeByte b then [Char.ofNat b] else ['%', hexDigitUC (b / 16), hexDigitUC (b % 16)]

/-- `urllib.parse.quote(s, safe='')` at the character-list level:
UTF-8 encode, then percent-encode every unsafe byte. -/
def pctQuoteL (s : List Char) : List Char :=
  (s.flatMap utf8Bytes).flatMap pctByte

/-- `urllib.parse.quote(s, safe='')`. -/
def pctQuote (s : String) : String := ⟨pctQuoteL s.data⟩

/-! ### Decimal and lowercase-hex renderings of integers -/

/-- Decimal digit character. -/
def decDigit (d : Nat) : Char :=
  match d with
  | 0 => '0' | 1 => '1' | 2 => '2' | 3 => '3' | 4 => '4'
  | 5 => '5' | 6 => '6' | 7 => '7' | 8 => '8' | _ => '9'

/-- Lowercase hex digit character (Python `'%x'`). -/
def hexDigitLC (n : Nat) : Char :=
  match n with
  | 0 => '0' | 1 => '1' | 2 => '2' | 3 => '3' | 4 => '4'
  | 5 => '5' | 6 => '6' | 7 => '7' | 8 => '8' | 9 => '9'
  | 10 => 'a' | 11 => 'b' | 12 => 'c' | 13 => 'd' | 14 => 'e'
  | _ => 'f'

/-- Accumulator pass for the decimal rendering of a natural number.
The fuel argument makes the recursion structural (and hence
kernel-evaluable); `n + 1` units always suffice since each step divides
`n` by ten. -/
def natDecCharsFuel : Nat → Nat → List Char → List Char
  | 0, _, acc => acc
  | fuel + 1, n, acc =>
    if n < 10 then decDigit n :: acc
    else natDecCharsFuel fuel (n / 10) (decDigit (n % 10) :: acc)

/-- Decimal rendering of a natural number (Python `str(int)` for
non-negative values). -/
def natDecChars (n : Nat) : List Char := natDecCharsFuel (n + 1) n []

/-- Accumulator pass for the lowercase-hex rendering, fuelled like
`natDecCharsFuel`. -/
def natHexCharsFuel : Nat → Nat → List Char → List Char
  | 0, _, acc => acc
  | fuel + 1, n, acc =>
    if n < 16 then hexDigitLC n :: acc
    else natHexCharsFuel fuel (n / 16) (hexDigitLC (n % 16) :: acc)

/-- Lowercase-hex rendering of a natural number without leading zeros
(Python `'%x' % n`). -/
def natHexChars (n : Nat) : List Char := natHexCharsFuel (n + 1) n []

/-! ### `ipaddress.ip_address` (Python 3.5 parsing rules)

`ConnectionString.__new__` (lines 80-91) feeds `hostaddr or host` to
`ipaddress.ip_address` and renders the parsed address. We embed the
parser for string inputs: `IPv4Address` is tried first, then
`IPv6Address`; a failure of both is a `ValueError`, modelled as `none`.
-/

/-- One dotted-quad octet (`IPv4Address._parse_octet`): decimal digits
only, at most three characters, values above 7 may not carry a leading
zero (ambiguous octal), at most 255. -/
def parseOctet (s : String) : Option Nat :=
  let cs := s.data
  if cs.isEmpty then none
  else if ¬ cs.all (fun c => c.isDigit) then none
  else if cs.length > 3 then none
  else
    let n := cs.foldl (fun acc c => acc * 10 + (c.toNat - 48)) 0
    if n > 7 ∧ cs.headD ' ' = '0' then none
    else if n > 255 then none
    else some n

/-- `IPv4Address` parsing of a string: exactly four octets separated by
dots; result is the 32-bit value. -/
def parseIPv4 (s : String) : Option Nat :=
  if s = "" then none
  else
    match splitOnChar '.' s with
    | [a, b, c, d] => do
      let av ← parseOctet a
      let bv ← parseOctet b
      let cv ← parseOctet c
      let dv ← parseOctet d
      pure (((av * 256 + bv) * 256 + cv) * 256 + dv)
    | _ => none

/-- One IPv6 hextet (`IPv6Address._parse_hextet`): hex digits only, at
most four characters; the empty string fails (`int('', 16)` raises). -/
def parseHextet (s : String) : Option Nat :=
  let cs := s.data
  if ¬ cs.all (fun c => c.isDigit ∨ ('a' ≤ c ∧ c ≤ 'f') ∨ ('A' ≤ c ∧ c ≤ 'F')) then none
  else if cs.length > 4 then none
  else if cs.isEmpty then none
  else some (cs.foldl (fun acc c =>
    acc * 16 + (if c.isDigit then c.toNat - 48 else if 'a' ≤ c then c.toNat - 87 else c.toNat - 55)) 0)

/-- Positions `1 .. len-2` holding an empty part (the `skip_index` scan
of `IPv6Address._ip_int_from_string`). -/
def innerEmptyIdxs (parts : List String) : List Nat :=
  (List.range parts.length).filter fun i =>
    decide (1 ≤ i) && decide (i + 1 < parts.length) && decide (parts.getD i " " = "")

/-- Fold a list of hextet values into the address integer. -/
def foldHextets (acc : Nat) (l : List Nat) : Nat :=
  l.foldl (fun a v => a * 65536 + v) acc

/-- `IPv6Address._ip_int_from_string` for string inputs (Python 3.5: no
scope ids): split on colons, expand a trailing dotted quad into two
hextets, locate at most one `::`, check the part counts, and assemble
the 128-bit value. -/
def parseIPv6 (s : String) : Option Nat := do
  if s = "" then failure
  let parts0 := splitOnChar ':' s
  if parts0.length < 3 then failure
  let parts ←
    if (parts0.getLastD "").data.contains '.' then do
      let v4 ← parseIPv4 (parts0.getLastD "")
      pure (parts0.dropLast ++
        [(⟨natHexChars ((v4 >>> 16) &&& 0xFFFF)⟩ : String), ⟨natHexChars (v4 &&& 0xFFFF)⟩])
    else pure parts0
  if parts.length > 9 then failure
  match innerEmptyIdxs parts with
  | [] =>
    if parts.length ≠ 8 then failure
    if parts.headD " " = "" then failure
    if parts.getLastD " " = "" then failure
    let vals ← parts.mapM parseHextet
    pure (foldHextets 0 vals)
  | [i] =>
    let hi0 := i
    let lo0 := parts.length - i - 1
    let hi ← if parts.headD " " = "" then (if hi0 = 1 then pure 0 else failure) else pure hi0
    let lo ← if parts.getLastD " " = "" then (if lo0 = 1 then pure 0 else failure) else pure lo0
    if hi + lo > 7 then failure
    let skipped := 8 - (hi + lo)
    let hiVals ← (parts.take hi).mapM parseHextet
    let loVals ← (parts.drop (parts.length - lo)).mapM parseHextet
    pure (foldHextets (foldHextets 0 hiVals * 65536 ^ skipped) loVals)
  | _ => failure

/-- A parsed IP address: the version tag plus the packed integer, as
`ipaddress.ip_address` returns an `IPv4Address` or `IPv6Address`. -/
inductive IPAddr where
  | v4 (n : Nat)
  | v6 (n : Nat)
  deriving DecidableEq

/-- `ipaddress.ip_address` on a string: IPv4 first, then IPv6; `none`
models the `ValueError` for a value that is neither. -/
def ipAddressParse (s : String) : Option IPAddr :=
  match parseIPv4 s with
  | some n => some (.v4 n)
  | none =>
    match parseIPv6 s with
    | some n => some (.v6 n)
    | none => none

/-- `str(IPv4Address)`: dotted quad of the packed value. -/
def ipv4Str (n : Nat) : String :=
  strJoinSep '.'
    ([(n >>> 24) &&& 255, (n >>> 16) &&& 255, (n >>> 8) &&& 255, n &&& 255].map
      fun b => (⟨natDecChars b⟩ : String))

/-- The eight hextet values of a 128-bit address, high to low. -/
def v6Hextets (n : Nat) : List Nat :=
  [7, 6, 5, 4, 3, 2, 1, 0].map fun k => (n >>> (16 * k)) &&& 0xFFFF

/-- State of the best-zero-run scan in `_compress_hextets`. -/
structure RunSt where
  idx : Nat
  bestS : Nat
  bestL : Nat
  curS : Nat
  curL : Nat
  deriving DecidableEq

/-- One step of the `_compress_hextets` scan: extend or reset the
current run of `"0"` hextets and keep the first longest run. -/
def runStep (st : RunSt) (h : String) : RunSt :=
  if h = "0" then
    let curS := if st.curL = 0 then st.idx else st.curS
    let curL := st.curL + 1
    if curL > st.bestL then ⟨st.idx + 1, curS, curL, curS, curL⟩
    else ⟨st.idx + 1, st.bestS, st.bestL, curS, curL⟩
  else ⟨st.idx + 1, st.bestS, st.bestL, 0, 0⟩

/-- Start and length of the first longest run of `"0"` hextets. -/
def bestZeroRun (hx : List String) : Nat × Nat :=
  let st := hx.foldl runStep ⟨0, 0, 0, 0, 0⟩
  (st.bestS, st.bestL)

/-- `str(IPv6Address)` (`_string_from_ip_int` plus `_compress_hextets`):
lowercase hex hextets without leading zeros, the first longest run of at
least two zero hextets compressed to `::`. -/
def ipv6Str (n : Nat) : String :=
  let hx := (v6Hextets n).map fun g => (⟨natHexChars g⟩ : String)
  let sl := bestZeroRun hx
  if sl.2 > 1 then
    let hx1 := if sl.1 + sl.2 = hx.length then hx ++ [""] else hx
    let hx2 := hx1.take sl.1 ++ "" :: hx1.drop (sl.1 + sl.2)
    let hx3 := if sl.1 = 0 then "" :: hx2 else hx2
    strJoinSep ':' hx3
  else strJoinSep ':' hx

/-! ### The URI rendering (`ConnectionString.__new__`, lines 69-103) -/

/-- `del d[k]` on an association list. -/
def aListErase (k : String) (l : List (String × String)) : List (String × String) :=
  l.filter fun p => p.1 != k

/-- `d[k] = v` on an association list: replace in place if the key is
present, else append. -/
def aListSet (k v : String) (l : List (String × String)) : List (String × String) :=
  if l.any (fun p => p.1 == k) then l.map (fun p => if p.1 == k then (p.1, v) else p)
  else l ++ [(k, v)]

/-- `kw.get('hostaddr') or kw.get('host')` (line 82): the `hostaddr`
value when present and non-empty, else the `host` value. -/
def hostArg (kw : List (String × String)) : String :=
  match kw.lookup "hostaddr" with
  | some ha => if ha ≠ "" then ha else (kw.lookup "host").getD ""
  | none => (kw.lookup "host").getD ""

/-- The value stored into `d['hostaddr']` (lines 81-91): parse the
chosen value as an IP address; an IPv6 literal is bracketed, an IPv4
literal rendered plainly, and on `ValueError` the percent-encoded
`host` value is used instead. -/
def hostComponent (kw : List (String × String)) : String :=
  match ipAddressParse (hostArg kw) with
  | some (.v6 n) => "[" ++ ipv6Str n ++ "]"
  | some (.v4 n) => ipv4Str n
  | none => pctQuote ((kw.lookup "host").getD "")

/-- `main_keys` (lines 97-98). -/
def uriMainKeys : List String := ["user", "password", "dbname", "hostaddr", "port"]

/-- The dict `d` after lines 74-91: every value percent-encoded with no
safe characters; when `host` is a key, `hostaddr` is overwritten with
the host component and `host` deleted. -/
def uriDict (kw : List (String × String)) : List (String × String) :=
  let d0 := kw.map fun p => (p.1, pctQuote p.2)
  if (kw.lookup "host").isSome then aListErase "host" (aListSet "hostaddr" (hostComponent kw) d0)
  else d0

/-- The sorted extra keys of `d` (lines 99-100): `extra not in
main_keys`. -/
def uriExtraKeys (kw : List (String × String)) : List String :=
  (sortStrs ((uriDict kw).map Prod.fst)).filter fun k => decide (¬ k ∈ uriMainKeys)

/-- The URI of `ConnectionString.__new__` (lines 73-103): the format
pieces are appended conditionally and then substituted from `d`.  The
`{hostaddr}` piece is appended only when `host` is among the keyword
arguments. -/
def uriRender (kw : List (String × String)) : String :=
  let d := uriDict kw
  "postgresql://"
    ++ (match d.lookup "user", d.lookup "password" with
        | some u, some pw => u ++ ":" ++ pw ++ "@"
        | some u, none => u ++ "@"
        | none, _ => "")
    ++ (if (kw.lookup "host").isSome then (d.lookup "hostaddr").getD "" else "")
    ++ (match d.lookup "port" with
        | some p => ":" ++ p
        | none => "")
    ++ (match d.lookup "dbname" with
        | some db => "/" ++ db
        | none => "")
    ++ (match uriExtraKeys kw with
        | [] => ""
        | ks => "?" ++ strJoinSep '&' (ks.map fun k => k ++ "=" ++ (d.lookup k).getD ""))

/-! ### `ConnectionString` -/

/-- An instance of the `ConnectionString` class as observed through its
instance attributes: the field mapping (set by lines 64-65), the
keyword string (its `str` content, lines 58-62) and the URI (line
103).  As a Python set/dict element a `ConnectionString` is its `str`
content, i.e. `kwstr`. -/
structure ConnStr where
  fields : List (String × String)
  kwstr : String
  uri : String
  deriving DecidableEq

/-- `ConnectionString(**kw)` for string-valued keyword arguments (the
shape produced by `_cs`): never raises. -/
def ConnectionString.newStr (kw : List (String × String)) : ConnStr :=
  ⟨kw, kwRender kw, uriRender kw⟩

/-- A Python value passed as a keyword argument: the class is documented
(and doctested, lines 36-54) to accept integers such as `port=5432`. -/
inductive PyVal where
  | s (v : String)
  | i (v : Int)
  deriving DecidableEq

/-- Whether the value is a string. -/
def pyValIsStr : PyVal → Bool
  | .s _ => true
  | .i _ => false

/-- `str(x)` (line 59 applies it inside `quote`). -/
def pyValStr : PyVal → String
  | .s v => v
  | .i n => toString n

/-- `ConnectionString(**kw)` for arbitrary values.  Line 74 applies
`urllib.parse.quote(v, safe='')` to every raw value while building the
URI dict; `urllib.parse.quote` raises `TypeError` on a non-`str` value
(`quote_from_bytes() expected bytes`), so construction raises — modelled
as `Except.error` — exactly when some value is not a string, although
the keyword string of lines 58-62 would have tolerated it via `str(x)`. -/
def ConnectionString.new (kw : List (String × PyVal)) : Except Unit ConnStr :=
  if kw.all (fun p => pyValIsStr p.2) then
    Except.ok (ConnectionString.newStr (kw.map fun p => (p.1, pyValStr p.2)))
  else Except.error ()

/-- The class-level state of `ConnectionString`: line 67 executes
`self._keys = set(kw.keys())` inside `__new__`, whose first parameter
`self` is the *class* (Python `__new__` is an implicit staticmethod
receiving the class), so `_keys` is a class attribute shared by every
instance. -/
structure CSClassState where
  keysAttr : Finset String
  deriving DecidableEq

/-- Construction together with its effect on the shared class state:
the returned instance, and the class state after line 67 overwrote
`ConnectionString._keys` with this call's key set. -/
def ConnectionString.newCls (_cls : CSClassState) (kw : List (String × String)) :
    ConnStr × CSClassState :=
  (ConnectionString.newStr kw, ⟨(kw.map Prod.fst).toFinset⟩)

/-- `ConnectionString.keys` (lines 114-115): `iter(self._keys)`.
Instances never receive their own `_keys` attribute, so the lookup
falls through to the current class attribute. -/
def ConnectionString.keysMeth (_c : ConnStr) (cls : CSClassState) : Finset String :=
  cls.keysAttr

/-! ### Relation data and the resolver -/

/-- A raw per-unit attribute record (string-valued, as Juju relation
data). -/
abbrev RelData := List (String × String)

/-- One relation instance: the remote units' records and the local
side's record (`relation.local`). -/
structure Relation where
  units : List (String × RelData)
  localData : RelData
  deriving DecidableEq

/-- Python truthiness of `reldata.get(k)`: `None` (absent) and the
empty string are falsy. -/
def truthyOpt (o : Option String) : Bool := o.getD "" != ""

/-- Python `str.isspace` characters relevant to `str.split()` (ASCII
whitespace; `split()` splits on runs of whitespace and drops empties). -/
def pyIsSpace (c : Char) : Bool :=
  (c == ' ') || (c == '\t') || (c == '\n') || (c == '\r') || (c == '\x0B') || (c == '\x0C')

/-- Python `s.split()` with no arguments: split on whitespace runs and
drop the empty pieces. -/
def pySplitWs (s : String) : List String :=
  ((splitPredL pyIsSpace s.data).map fun l => (⟨l⟩ : String)).filter fun t => t != ""

/-- `all(d.values())` over the five core fields of lines 332-337:
`host`, `port`, `database` (rendered as `dbname`), `user`, `password`
must all be present and non-empty. -/
def coreFieldsOk (rd : RelData) : Bool :=
  [rd.lookup "host", rd.lookup "port", rd.lookup "database",
   rd.lookup "user", rd.lookup "password"].all truthyOpt

/-- `local_unit in reldata.get('allowed-units', '').split()` (line 340). -/
def authorizedB (rd : RelData) (localUnit : String) : Bool :=
  decide (localUnit ∈ pySplitWs ((rd.lookup "allowed-units").getD ""))

/-- `'database' in locdata and locdata['database'] != d['dbname']`
(line 344). -/
def dbMismatch (rd locdata : RelData) : Bool :=
  match locdata.lookup "database" with
  | some req => req != (rd.lookup "database").getD ""
  | none => false

/-- The `ConnectionString(**d)` call of line 347 over the five core
fields. -/
def csBuild (rd : RelData) : ConnStr :=
  ConnectionString.newStr
    [("dbname", (rd.lookup "database").getD ""), ("host", (rd.lookup "host").getD ""),
     ("password", (rd.lookup "password").getD ""), ("port", (rd.lookup "port").getD ""),
     ("user", (rd.lookup "user").getD "")]

/-- `_cs(reldata)` (lines 328-347): `None` for an empty record, for a
record missing or blanking one of the five core fields, for a record
whose `allowed-units` does not list the local unit, and for a record
whose `database` differs from one the local side has requested;
otherwise the `ConnectionString` over the five fields.  `locdata` is
the local record of the relation the unit belongs to (line 343). -/
def _cs (rd locdata : RelData) (localUnit : String) : Option ConnStr :=
  if rd.isEmpty then none
  else if ¬ coreFieldsOk rd then none
  else if ¬ authorizedB rd localUnit then none
  else if dbMismatch rd locdata then none
  else some (csBuild rd)

/-- `reldata.get('state') in ('master', 'standalone')` (line 157). -/
def declaresMaster (rd : RelData) : Bool :=
  match rd.lookup "state" with
  | some "master" => true
  | some "standalone" => true
  | _ => false

/-- `reldata.get('state') == 'hot standby'` (line 169). -/
def isHotStandby (rd : RelData) : Bool := rd.lookup "state" == some "hot standby"

/-- The `masters` list of `ConnectionStrings.master` (lines 156-157):
names of units declaring `master` or `standalone`. -/
def masterDeclaredUnits (rel : Relation) : List String :=
  (rel.units.filter fun p => declaresMaster p.2).map Prod.fst

/-- Python truthiness of a `ConnectionString` (it is a `str`): non-empty. -/
def pyTruthyCS (c : ConnStr) : Bool := c.kwstr != ""

/-- `ConnectionStrings.master` (lines 152-162): if exactly one unit
declares `master`/`standalone`, that unit's stored `_cs` resolution
(`self[masters[0]]`, which may be `None`); otherwise `None`. -/
def ConnectionStrings.master (rel : Relation) (localUnit : String) : Option ConnStr :=
  match masterDeclaredUnits rel with
  | [u] => (rel.units.lookup u).bind fun rd => _cs rd rel.localData localUnit
  | _ => none

/-- The values yielded by the `ConnectionStrings.standbys` generator
(lines 164-172): the stored `_cs` of every truthy `hot standby` unit. -/
def ConnectionStrings.standbysList (rel : Relation) (localUnit : String) : List ConnStr :=
  rel.units.filterMap fun p =>
    if isHotStandby p.2 then
      match _cs p.2 rel.localData localUnit with
      | some c => if pyTruthyCS c then some c else none
      | none => none
    else none

/-- Python truthiness of `cs.master` (a `ConnectionString` or `None`). -/
def pyTruthyOptCS : Option ConnStr → Bool
  | some c => pyTruthyCS c
  | none => false

/-- Python truthiness of the value of the `cs.standbys` property.  The
property body contains `yield`, so evaluating it returns a *generator
object*, and any generator object is truthy — regardless of whether it
would yield anything.  The would-be yielded items are carried as the
argument purely for specification purposes. -/
def generatorTruthy (_items : List ConnStr) : Bool := true

/-- The availability flags toggled by `PostgreSQLClient.changed`
(lines 213-228). -/
structure RelFlags where
  masterAvailable : Bool
  standbysAvailable : Bool
  databaseAvailable : Bool
  deriving DecidableEq

/-- `PostgreSQLClient.changed` (lines 213-228): each flag is set from
the truthiness of the value passed to `toggle_state`.  `cs.master` is a
`ConnectionString` or `None`; `cs.standbys` is a generator object;
`cs.master or cs.standbys` is the first truthy of the two (so its
truthiness is the disjunction). -/
def PostgreSQLClient.changedFlags (rel : Relation) (localUnit : String) : RelFlags :=
  let m := ConnectionStrings.master rel localUnit
  let sb := ConnectionStrings.standbysList rel localUnit
  ⟨pyTruthyOptCS m, generatorTruthy sb, pyTruthyOptCS m || generatorTruthy sb⟩

/-- `PostgreSQLClient.standbys` (lines 292-299):
`set(itertools.chain(*(cs.standbys for cs in self)))` over all relation
instances of the relation name.  A `ConnectionString` participates in a
Python set through its `str` content, i.e. its keyword string. -/
def PostgreSQLClient.standbysAgg (rels : List (String × Relation)) (localUnit : String) :
    Finset String :=
  ((rels.map fun p => (ConnectionStrings.standbysList p.2 localUnit).map ConnStr.kwstr).flatten).toFinset

/-- The loop of `PostgreSQLClient.connection_string` (lines 315-325)
over the relation instances, with the `found` flag. -/
def connStrGo (localUnit unit : String) : List Relation → Bool → Except Unit (Option ConnStr)
  | [], found => if found then Except.ok none else Except.error ()
  | rel :: rest, found =>
    match rel.units.lookup unit with
    | some rd =>
      match _cs rd rel.localData localUnit with
      | some c =>
        if pyTruthyCS c then Except.ok (some c) else connStrGo localUnit unit rest true
      | none => connStrGo localUnit unit rest true
    | none => connStrGo localUnit unit rest found

/-- `PostgreSQLClient.connection_string(unit)` (lines 301-325): scan the
relation instances under the relation name; return the first truthy
`_cs`, `None` when the unit was found somewhere but never ready, and
raise `LookupError` — modelled as `Except.error` — when the unit is in
no instance. -/
def PostgreSQLClient.connectionStr (rels : List (String × Relation))
    (localUnit unit : String) : Except Unit (Option ConnStr) :=
  connStrGo localUnit unit (rels.map Prod.snd) false

/-- Spec-side description for the corrected C4: the first instance, in
enumeration order, whose record for the unit is ready, yielding its
descriptor. -/
def firstReadyDescriptor (localUnit unit : String) (rels : List Relation) : Option ConnStr :=
  rels.findSome? fun rel =>
    match rel.units.lookup unit with
    | some rd => (_cs rd rel.localData localUnit).bind fun c =>
        if pyTruthyCS c then some c else none
    | none => none

/-! ### Claim-side re-parsing of the keyword string (C5)

The claim re-parses `Render-as-keyword-string` output as `key=value`
pairs split on unescaped spaces, reversing the backslash escaping.
These definitions follow the spec's words, not the source (the source
has no parser); they are compared with `kwRender`.
-/

/-- Split on unescaped spaces, scanning with an "inside an escape"
flag: a backslash takes the following character verbatim into the
current token. -/
def splitUnescSt (esc : Bool) : List Char → List (List Char)
  | [] => [[]]
  | c :: rest =>
    if esc then consTok c (splitUnescSt false rest)
    else if c = '\\' then consTok c (splitUnescSt true rest)
    else if c = ' ' then [] :: splitUnescSt false rest
    else consTok c (splitUnescSt false rest)

/-- Split a rendered keyword string on its unescaped spaces. -/
def splitUnescSp (l : List Char) : List (List Char) := splitUnescSt false l

/-- Undo the value escaping: a backslash followed by any character
denotes that character. -/
def unescL : List Char → List Char
  | [] => []
  | c :: rest =>
    if c = '\\' then
      match rest with
      | [] => [c]
      | c2 :: rest2 => c2 :: unescL rest2
    else c :: unescL rest

/-- Parse one `key=value` token: the key is everything before the first
`=`, the value everything after it, unescaped. -/
def parsePairL (t : List Char) : String × String :=
  (⟨t.takeWhile fun c => c != '='⟩, ⟨unescL ((t.dropWhile fun c => c != '=').drop 1)⟩)

/-- The claim's re-parsing of a rendered keyword string. -/
def kwParse (s : String) : List (String × String) :=
  (splitUnescSp s.data).map parsePairL

/-- Character lists that sit safely between unescaped spaces: no
top-level space or lone backslash; exactly the shape of rendered
`key=quote(value)` tokens. -/
inductive EscTok : List Char → Prop
  | nil : EscTok []
  | chr (c : Char) (l : List Char) : c ≠ '\\' → c ≠ ' ' → EscTok l → EscTok (c :: l)
  | esc (c : Char) (l : List Char) : EscTok l → EscTok ('\\' :: c :: l)

/-! ### Concrete snapshots used by witnesses and counterexamples -/

/-- A fully populated, authorized unit record declaring `master`. -/
def exRdReady : RelData :=
  [("state", "master"), ("host", "10.0.0.1"), ("port", "5432"), ("database", "appdb"),
   ("user", "appuser"), ("password", "sekrit"), ("allowed-units", "client/0 client/1")]

/-- A unit record declaring `master` with no usable fields. -/
def exRdBare : RelData := [("state", "master")]

/-- A relation instance with two declared masters, only one of them
ready. -/
def relTwoMasters : Relation := ⟨[("a/0", exRdReady), ("b/0", exRdBare)], []⟩

/-- A relation instance with a single, ready, declared master. -/
def relOneMaster : Relation := ⟨[("a/0", exRdReady)], []⟩

/-- First relation instance in `relsTwoInstances`: contains `pg/0` but
its record is incomplete. -/
def relNotReadyFirst : Relation := ⟨[("pg/0", [("state", "standalone"), ("host", "10.0.0.2")])], []⟩

/-- Two instances under one relation name: `pg/0` is unready in the
first and ready in the second. -/
def relsTwoInstances : List (String × Relation) :=
  [("db:1", relNotReadyFirst), ("db:2", ⟨[("pg/0", exRdReady)], []⟩)]

/-- A relation instance with one unready `hot standby` unit: no master,
no ready standby. -/
def relC7 : Relation := ⟨[("pg/0", [("state", "hot standby")])], []⟩

/-- The ready `ConnectionString` built by `_cs` from `exRdReady`. -/
def exReadyCS : ConnStr :=
  ConnectionString.newStr
    [("dbname", "appdb"), ("host", "10.0.0.1"), ("password", "sekrit"),
     ("port", "5432"), ("user", "appuser")]

/-! ## Theorems -/

/-- Claim C1: for every relation instance snapshot, if zero units or
more than one unit declares state `master` or `standalone`, the
resolved master is `None`; the resolver never reports more than one
master (its result is a single optional descriptor). -/
theorem c1_ambiguous_master_is_none (rel : Relation) (localUnit : String)
    (h : (masterDeclaredUnits rel).length ≠ 1) :
    ConnectionStrings.master rel localUnit = none := by
  unfold ConnectionStrings.master
  cases hm : masterDeclaredUnits rel with
  | nil => rfl
  | cons u rest =>
    cases rest with
    | nil => exact absurd (by rw [hm]; rfl) h
    | cons v rest2 => rfl

/-- Witness for C1: a snapshot with two declared masters (one of them
ready) resolves to no master. -/
theorem c1_ambiguous_master_is_none_witness :
    ConnectionStrings.master relTwoMasters "client/0" = none :=
  c1_ambiguous_master_is_none relTwoMasters "client/0" (by decide)

/-- Spec-side notion used to refute C3: the declared master-candidates
whose records are ready. -/
def readyMasterCandidates (rel : Relation) (localUnit : String) : List String :=
  (((rel.units.filter fun p => declaresMaster p.2).filter
      fun p => (_cs p.2 rel.localData localUnit).isSome).map Prod.fst)

/-- Counterexample to C3 as stated: in `relTwoMasters` exactly one
master-candidate (`a/0`) is ready, yet the resolver reports no master,
because the code counts *declared* candidates (two here), not ready
ones. -/
theorem c3_counterexample :
    readyMasterCandidates relTwoMasters "client/0" = ["a/0"] ∧
    ConnectionStrings.master relTwoMasters "client/0" = none := by
  constructor
  · rfl
  · rfl

/-- Claim C3 (amended): the master is determined by the *declared*
candidate count — when exactly one unit declares `master`/`standalone`,
the master is that unit's `_cs` resolution (its descriptor if ready,
`None` otherwise); in every other case the master is `None` no matter
how many candidates are ready. -/
theorem c3_master_is_sole_declared (rel : Relation) (localUnit : String) (u : String)
    (h : masterDeclaredUnits rel = [u]) :
    ConnectionStrings.master rel localUnit
      = (rel.units.lookup u).bind fun rd => _cs rd rel.localData localUnit := by
  unfold ConnectionStrings.master
  rw [h]

/-- Witness for the amended C3: a snapshot whose sole declared master is
ready resolves to that unit's descriptor. -/
theorem c3_master_is_sole_declared_witness :
    ConnectionStrings.master relOneMaster "client/0" = some exReadyCS :=
  (c3_master_is_sole_declared relOneMaster "client/0" "a/0" rfl).trans (by rfl)

/-- Counterexample to C4 as stated: `pg/0` appears in the first
instance of `relsTwoInstances` with an unready record, so the claim
demands the first instance's resolution (`NotReady`); the code skips it
and returns the second instance's descriptor. -/
theorem c4_counterexample :
    PostgreSQLClient.connectionStr relsTwoInstances "client/0" "pg/0"
      = Except.ok (some exReadyCS) ∧
    _cs [("state", "standalone"), ("host", "10.0.0.2")] [] "client/0" = none := by
  exact ⟨rfl, rfl⟩

/-- Counterexample to C5 as stated: a value containing a space is not
escaped, so re-parsing the rendering splits inside the value and does
not reconstruct the field set. -/
theorem c5_counterexample :
    kwParse (kwRender [("host", "a b")]) = [("host", "a"), ("b", "")] ∧
    kwParse (kwRender [("host", "a b")]) ≠ [("host", "a b")] := by
  exact ⟨rfl, by decide⟩

/-- Counterexample to C6 as stated: with `hostaddr` supplied but no
`host` key, the rendering emits no host component at all (the
`{hostaddr}` piece is appended only under `'host' in kw`), instead of
computing the component from `hostaddr`; supplying the same address as
`host` shows where the component would have gone. -/
theorem c6_counterexample :
    uriRender [("dbname", "db"), ("hostaddr", "1.2.3.4")] = "postgresql:///db" ∧
    uriRender [("dbname", "db"), ("host", "1.2.3.4")] = "postgresql://1.2.3.4/db" := by
  exact ⟨rfl, rfl⟩

/-- Claim C7 (code bug): after a `changed` re-evaluation of a snapshot
with no master and no ready standby, the standbys flag and the database
flag are nevertheless raised, because `cs.standbys` is a generator
object — truthy regardless of what it would yield — contradicting the
claim (and the code's own comments, lines 222 and 226). -/
theorem c7_flags_generator_bug :
    PostgreSQLClient.changedFlags relC7 "client/0"
      = { masterAvailable := false, standbysAvailable := true, databaseAvailable := true } ∧
    ConnectionStrings.standbysList relC7 "client/0" = [] ∧
    ConnectionStrings.master relC7 "client/0" = none := by
  exact ⟨rfl, rfl, rfl⟩

/-- Claim C9 (code bug): constructing a second `ConnectionString`
changes what `keys()` reports on the first one, because line 67 stores
the key set on the class (`self` in `__new__` is the class), not on the
instance. -/
theorem c9_keys_mutate_across_constructions :
    (let r1 := ConnectionString.newCls ⟨∅⟩
        [("host", "h"), ("port", "5432"), ("dbname", "d"), ("user", "u"), ("password", "p")]
     let r2 := ConnectionString.newCls r1.2
        [("host", "h"), ("port", "5432"), ("dbname", "d"), ("user", "u"), ("password", "p"),
         ("sslmode", "require")]
     ConnectionString.keysMeth r1.1 r2.2 ≠ ConnectionString.keysMeth r1.1 r1.2) := by
  decide

/-- Claim C10 (code bug): the class's own doctest (line 37) constructs
with the integer `port=5432`, but line 74 applies `urllib.parse.quote`
to every raw value and that raises `TypeError` on a non-`str` value, so
construction is not total over integer values; the same arguments with
a string port succeed. -/
theorem c10_int_port_raises :
    ConnectionString.new
        [("host", PyVal.s "1.2.3.4"), ("dbname", PyVal.s "mydb"), ("port", PyVal.i 5432),
         ("user", PyVal.s "anon"), ("password", PyVal.s "secret")]
      = Except.error () ∧
    ConnectionString.new
        [("host", PyVal.s "1.2.3.4"), ("dbname", PyVal.s "mydb"), ("port", PyVal.s "5432"),
         ("user", PyVal.s "anon"), ("password", PyVal.s "secret")]
      = Except.ok (ConnectionString.newStr
          [("host", "1.2.3.4"), ("dbname", "mydb"), ("port", "5432"),
           ("user", "anon"), ("password", "secret")]) := by
  exact ⟨rfl, rfl⟩

/-- Claim C2: `_cs` yields a descriptor exactly when the five core
fields are present and non-empty, the local unit is listed in the
whitespace-split `allowed-units`, and any locally requested database
name matches the remote-reported one; every failure is the `None`
value (the embedding is a total function into `Option`, never an
exception). -/
theorem c2_cs_ready_iff (rd locdata : RelData) (localUnit : String) :
    (_cs rd locdata localUnit).isSome = true ↔
      (truthyOpt (rd.lookup "host") = true ∧ truthyOpt (rd.lookup "port") = true ∧
       truthyOpt (rd.lookup "database") = true ∧ truthyOpt (rd.lookup "user") = true ∧
       truthyOpt (rd.lookup "password") = true ∧
       localUnit ∈ pySplitWs ((rd.lookup "allowed-units").getD "") ∧
       ∀ req, locdata.lookup "database" = some req → rd.lookup "database" = some req) := by
  have hcs : (_cs rd locdata localUnit).isSome = true ↔
      (rd.isEmpty = false ∧ coreFieldsOk rd = true ∧ authorizedB rd localUnit = true ∧
        dbMismatch rd locdata = false) := by
    unfold _cs
    by_cases h1 : rd.isEmpty = true <;> by_cases h2 : coreFieldsOk rd = true <;>
      by_cases h3 : authorizedB rd localUnit = true <;>
      by_cases h4 : dbMismatch rd locdata = true <;>
      simp [h1, h2, h3, h4]
  rw [hcs]
  constructor
  · rintro ⟨-, hf, ha, hm⟩
    have hfive := hf
    simp only [coreFieldsOk, List.all_cons, List.all_nil, Bool.and_eq_true,
      Bool.and_true] at hfive
    obtain ⟨h1, h2, h3, h4, h5⟩ := hfive
    refine ⟨h1, h2, h3, h4, h5, by simpa [authorizedB] using ha, ?_⟩
    intro req hreq
    obtain ⟨dbv, hdbv⟩ : ∃ v, rd.lookup "database" = some v := by
      cases hdb : rd.lookup "database" with
      | none => rw [hdb] at h3; exact absurd h3 (by simp [truthyOpt])
      | some v => exact ⟨v, rfl⟩
    have : req = dbv := by
      simp only [dbMismatch, hreq, hdbv, Option.getD_some] at hm
      simpa using hm
    rw [hdbv, this]
  · rintro ⟨h1, h2, h3, h4, h5, hmem, hdbm⟩
    refine ⟨?_, ?_, ?_, ?_⟩
    · cases rd with
      | nil => exact absurd h1 (by simp [truthyOpt, List.lookup])
      | cons a l => rfl
    · simp [coreFieldsOk, h1, h2, h3, h4, h5]
    · simpa [authorizedB] using hmem
    · cases hloc : locdata.lookup "database" with
      | none => simp [dbMismatch, hloc]
      | some req =>
        have := hdbm req hloc
        simp [dbMismatch, hloc, this]

/-- Witness for C2: a complete, authorized record with a matching local
request resolves to a descriptor. -/
theorem c2_cs_ready_iff_witness :
    (_cs exRdReady [("database", "appdb")] "client/0").isSome = true :=
  (c2_cs_ready_iff exRdReady [("database", "appdb")] "client/0").mpr (by decide)

/-- When no relation instance contains the unit, there is no first
ready descriptor. -/
theorem firstReady_none_of_not_found (localUnit unit : String) :
    ∀ rels : List Relation,
      rels.any (fun rel => (rel.units.lookup unit).isSome) = false →
      firstReadyDescriptor localUnit unit rels = none := by
  intro rels
  induction rels with
  | nil => intro h; rfl
  | cons rel rest ih =>
    intro h
    simp only [List.any_cons, Bool.or_eq_false_iff] at h
    obtain ⟨h1, h2⟩ := h
    have hl : rel.units.lookup unit = none := by
      cases hx : rel.units.lookup unit with
      | none => rfl
      | some rd => rw [hx] at h1; cases h1
    simp only [firstReadyDescriptor, List.findSome?_cons, hl]
    exact ih h2

/-- The `connection_string` loop returns the first ready descriptor
when the unit occurs somewhere, `None` when it occurs but is never
ready (or when an earlier instance already recorded it as found), and
`LookupError` otherwise. -/
theorem connStrGo_spec (localUnit unit : String) :
    ∀ (rels : List Relation) (found : Bool),
      connStrGo localUnit unit rels found
        = if rels.any (fun rel => (rel.units.lookup unit).isSome)
          then Except.ok (firstReadyDescriptor localUnit unit rels)
          else if found then Except.ok none else Except.error () := by
  intro rels
  induction rels with
  | nil => intro found; simp [connStrGo, firstReadyDescriptor]
  | cons rel rest ih =>
    intro found
    cases hl : rel.units.lookup unit with
    | none =>
      have e1 : connStrGo localUnit unit (rel :: rest) found
          = connStrGo localUnit unit rest found := by
        simp [connStrGo, hl]
      have e2 : firstReadyDescriptor localUnit unit (rel :: rest)
          = firstReadyDescriptor localUnit unit rest := by
        simp [firstReadyDescriptor, List.findSome?_cons, hl]
      have e3 : ((rel :: rest).any fun r => (r.units.lookup unit).isSome)
          = (rest.any fun r => (r.units.lookup unit).isSome) := by
        simp [List.any_cons, hl]
      rw [e1, ih found, e3, e2]
    | some rd =>
      have e3 : ((rel :: rest).any fun r => (r.units.lookup unit).isSome) = true := by
        simp [List.any_cons, hl]
      rw [e3, if_pos rfl]
      cases hc : _cs rd rel.localData localUnit with
      | none =>
        have e1 : connStrGo localUnit unit (rel :: rest) found
            = connStrGo localUnit unit rest true := by
          simp [connStrGo, hl, hc]
        have e2 : firstReadyDescriptor localUnit unit (rel :: rest)
            = firstReadyDescriptor localUnit unit rest := by
          simp [firstReadyDescriptor, List.findSome?_cons, hl, hc]
        rw [e1, ih true, e2]
        by_cases hrest : (rest.any fun r => (r.units.lookup unit).isSome) = true
        · rw [if_pos hrest]
        · rw [Bool.not_eq_true] at hrest
          rw [hrest, firstReady_none_of_not_found localUnit unit rest hrest]
          simp
      | some c =>
        by_cases ht : pyTruthyCS c = true
        · have e1 : connStrGo localUnit unit (rel :: rest) found = Except.ok (some c) := by
            simp [connStrGo, hl, hc, ht]
          have e2 : firstReadyDescriptor localUnit unit (rel :: rest) = some c := by
            simp [firstReadyDescriptor, List.findSome?_cons, hl, hc, ht]
          rw [e1, e2]
        · rw [Bool.not_eq_true] at ht
          have e1 : connStrGo localUnit unit (rel :: rest) found
              = connStrGo localUnit unit rest true := by
            simp [connStrGo, hl, hc, ht]
          have e2 : firstReadyDescriptor localUnit unit (rel :: rest)
              = firstReadyDescriptor localUnit unit rest := by
            simp [firstReadyDescriptor, List.findSome?_cons, hl, hc, ht]
          rw [e1, ih true, e2]
          by_cases hrest : (rest.any fun r => (r.units.lookup unit).isSome) = true
          · rw [if_pos hrest]
          · rw [Bool.not_eq_true] at hrest
            rw [hrest, firstReady_none_of_not_found localUnit unit rest hrest]
            simp

/-- Claim C4 (amended): `connection_string` raises `LookupError`
exactly when the unit appears in no relation instance's raw data; when
it does appear, the result is the descriptor of the *first instance
whose record for the unit is ready* (later instances rescue a unit that
is unready in an earlier one), and `None` when no instance has it
ready. -/
theorem c4_lookup_first_ready (rels : List (String × Relation)) (localUnit unit : String) :
    PostgreSQLClient.connectionStr rels localUnit unit
      = if (rels.map Prod.snd).any (fun rel => (rel.units.lookup unit).isSome)
        then Except.ok (firstReadyDescriptor localUnit unit (rels.map Prod.snd))
        else Except.error () := by
  unfold PostgreSQLClient.connectionStr
  rw [connStrGo_spec]
  by_cases h : ((rels.map Prod.snd).any fun rel => (rel.units.lookup unit).isSome) = true
  · rw [if_pos h, if_pos h]
  · rw [Bool.not_eq_true] at h
    rw [h]
    simp

/-- Claim C8: the aggregate standby set is the union, over the relation
instances of the name, of each instance's ready hot-standby
descriptors, with membership exactly in some instance's standby list
(deduplication by descriptor value is the `Finset` structure). -/
theorem c8_standbys_union (rels : List (String × Relation)) (localUnit : String) :
    PostgreSQLClient.standbysAgg rels localUnit
        = (rels.map fun p =>
            ((ConnectionStrings.standbysList p.2 localUnit).map ConnStr.kwstr).toFinset).foldr
            (fun a b => a ∪ b) ∅
      ∧ ∀ sv : String,
          sv ∈ PostgreSQLClient.standbysAgg rels localUnit ↔
            ∃ p ∈ rels, sv ∈ (ConnectionStrings.standbysList p.2 localUnit).map ConnStr.kwstr := by
  constructor
  · induction rels with
    | nil => rfl
    | cons p rest ih =>
      simp only [PostgreSQLClient.standbysAgg, List.map_cons, List.flatten_cons,
        List.toFinset_append, List.foldr_cons] at ih ⊢
      rw [ih]
  · intro sv
    simp only [PostgreSQLClient.standbysAgg, List.mem_toFinset, List.mem_flatten]
    constructor
    · rintro ⟨l, hl, hsv⟩
      rcases List.mem_map.mp hl with ⟨p, hp, rfl⟩
      exact ⟨p, hp, hsv⟩
    · rintro ⟨p, hp, hsv⟩
      exact ⟨_, List.mem_map_of_mem _ hp, hsv⟩

/-! ### The keyword round-trip (C5) -/

/-- `replaceChar` distributes over list append. -/
theorem replaceChar_append (needle : Char) (rep : List Char) (a b : List Char) :
    replaceChar needle rep (a ++ b) = replaceChar needle rep a ++ replaceChar needle rep b := by
  induction a with
  | nil => rfl
  | cons c a ih => simp [replaceChar, ih, List.append_assoc]

/-- Character-wise description of the keyword escaping. -/
theorem pgQuoteL_cons (c : Char) (v : List Char) :
    pgQuoteL (c :: v)
      = (if c = '\\' then ['\\', '\\'] else if c = '\'' then ['\\', '\''] else [c])
        ++ pgQuoteL v := by
  show replaceChar '\'' ['\\', '\''] (replaceChar '\\' ['\\', '\\'] (c :: v)) = _
  have h0 : replaceChar '\\' ['\\', '\\'] (c :: v)
      = (if c = '\\' then ['\\', '\\'] else [c]) ++ replaceChar '\\' ['\\', '\\'] v := rfl
  rw [h0, replaceChar_append]
  by_cases h1 : c = '\\'
  · subst h1
    simp [replaceChar, pgQuoteL]
  · by_cases h2 : c = '\''
    · subst h2
      simp [replaceChar, pgQuoteL]
    · simp [replaceChar, pgQuoteL, h1, h2]

/-- Unescaping a backslash pair. -/
theorem unescL_esc (c : Char) (l : List Char) : unescL ('\\' :: c :: l) = c :: unescL l := rfl

/-- Unescaping an ordinary character. -/
theorem unescL_chr (c : Char) (l : List Char) (h : c ≠ '\\') :
    unescL (c :: l) = c :: unescL l := by
  rw [unescL.eq_def]
  simp [h]

/-- Unescaping undoes the keyword escaping. -/
theorem unescL_pgQuoteL (v : List Char) : unescL (pgQuoteL v) = v := by
  induction v with
  | nil => rfl
  | cons c v ih =>
    rw [pgQuoteL_cons]
    by_cases h1 : c = '\\'
    · subst h1
      rw [if_pos rfl]
      show unescL ('\\' :: '\\' :: pgQuoteL v) = '\\' :: v
      rw [unescL_esc, ih]
    · by_cases h2 : c = '\''
      · subst h2
        rw [if_neg h1, if_pos rfl]
        show unescL ('\\' :: '\'' :: pgQuoteL v) = '\'' :: v
        rw [unescL_esc, ih]
      · rw [if_neg h1, if_neg h2]
        show unescL (c :: pgQuoteL v) = c :: v
        rw [unescL_chr c _ h1, ih]

/-- A token made only of safe characters and escape pairs splits as
itself. -/
theorem splitSt_escTok (t : List Char) (h : EscTok t) : splitUnescSt false t = [t] := by
  induction h with
  | nil => rfl
  | chr c l hc hs _ ih => simp [splitUnescSt, hc, hs, ih, consTok]
  | esc c l _ ih => simp [splitUnescSt, ih, consTok]

/-- Splitting a token followed by an unescaped space. -/
theorem splitSt_sep (t r : List Char) (h : EscTok t) :
    splitUnescSt false (t ++ ' ' :: r) = t :: splitUnescSt false r := by
  induction h with
  | nil => simp [splitUnescSt]
  | chr c l hc hs _ ih => simp [splitUnescSt, hc, hs, ih, consTok]
  | esc c l _ ih => simp [splitUnescSt, ih, consTok]

/-- Splitting the space-join of well-formed tokens recovers the
tokens. -/
theorem splitSt_join (toks : List (List Char)) (h : ∀ t ∈ toks, EscTok t)
    (hne : toks ≠ []) : splitUnescSp (joinSepC ' ' toks) = toks := by
  induction toks with
  | nil => exact absurd rfl hne
  | cons t rest ih =>
    cases rest with
    | nil => exact splitSt_escTok t (h t (by simp))
    | cons t2 rest2 =>
      have hj : joinSepC ' ' (t :: t2 :: rest2) = t ++ ' ' :: joinSepC ' ' (t2 :: rest2) := rfl
      rw [splitUnescSp, hj, splitSt_sep t _ (h t (by simp))]
      rw [show splitUnescSt false (joinSepC ' ' (t2 :: rest2))
            = splitUnescSp (joinSepC ' ' (t2 :: rest2)) from rfl]
      rw [ih (fun u hu => h u (List.mem_cons_of_mem t hu)) (by simp)]

/-- The escaping of a space-free value is a well-formed token. -/
theorem escTok_pgQuote (v : List Char) (hv : ∀ c ∈ v, c ≠ ' ') : EscTok (pgQuoteL v) := by
  induction v with
  | nil => exact EscTok.nil
  | cons c v ih =>
    rw [pgQuoteL_cons]
    have ihv : EscTok (pgQuoteL v) := ih fun c hc => hv c (List.mem_cons_of_mem _ hc)
    by_cases h1 : c = '\\'
    · subst h1
      rw [if_pos rfl]
      exact EscTok.esc '\\' _ ihv
    · by_cases h2 : c = '\''
      · subst h2
        rw [if_neg h1, if_pos rfl]
        exact EscTok.esc '\'' _ ihv
      · rw [if_neg h1, if_neg h2]
        exact EscTok.chr c _ h1 (hv c (List.mem_cons_self c v)) ihv

/-- A rendered `key=quote(value)` token is well-formed. -/
theorem escTok_token (k v : List Char) (hk : ∀ c ∈ k, c ≠ '\\' ∧ c ≠ ' ')
    (hv : ∀ c ∈ v, c ≠ ' ') : EscTok (k ++ '=' :: pgQuoteL v) := by
  induction k with
  | nil => exact EscTok.chr '=' _ (by decide) (by decide) (escTok_pgQuote v hv)
  | cons c k ih =>
    exact EscTok.chr c _ (hk c (List.mem_cons_self c k)).1 (hk c (List.mem_cons_self c k)).2
      (ih fun b hb => hk b (List.mem_cons_of_mem c hb))

/-- `takeWhile` passes over a fully satisfying prefix. -/
theorem takeWhile_append_all (p : α → Bool) (a b : List α) (h : ∀ c ∈ a, p c = true) :
    (a ++ b).takeWhile p = a ++ b.takeWhile p := by
  induction a with
  | nil => rfl
  | cons x a ih =>
    simp [List.takeWhile_cons, h x (List.mem_cons_self x a),
      ih fun c hc => h c (List.mem_cons_of_mem x hc)]

/-- `dropWhile` passes over a fully satisfying prefix. -/
theorem dropWhile_append_all (p : α → Bool) (a b : List α) (h : ∀ c ∈ a, p c = true) :
    (a ++ b).dropWhile p = b.dropWhile p := by
  induction a with
  | nil => rfl
  | cons x a ih =>
    simp [List.dropWhile_cons, h x (List.mem_cons_self x a),
      ih fun c hc => h c (List.mem_cons_of_mem x hc)]

/-- Parsing a rendered token recovers the key and the unescaped value. -/
theorem parsePair_token (k : String) (v : List Char) (hk : ∀ c ∈ k.data, c ≠ '=') :
    parsePairL (k.data ++ '=' :: pgQuoteL v) = (k, ⟨v⟩) := by
  have hall : ∀ c ∈ k.data, (c != '=') = true := fun c hc => by
    simpa using hk c hc
  have h1 : (k.data ++ '=' :: pgQuoteL v).takeWhile (fun c => c != '=') = k.data := by
    rw [takeWhile_append_all _ _ _ hall]
    simp [List.takeWhile_cons]
  have h2 : (k.data ++ '=' :: pgQuoteL v).dropWhile (fun c => c != '=')
      = '=' :: pgQuoteL v := by
    rw [dropWhile_append_all _ _ _ hall]
    simp [List.dropWhile_cons]
  show ((⟨(k.data ++ '=' :: pgQuoteL v).takeWhile fun c => c != '='⟩ : String),
      (⟨unescL (((k.data ++ '=' :: pgQuoteL v).dropWhile fun c => c != '=').drop 1)⟩ : String))
    = (k, (⟨v⟩ : String))
  rw [h1, h2]
  simp [unescL_pgQuoteL]

/-- Inserting into a list is a permutation of consing. -/
theorem insortBy_perm (lt : α → α → Bool) (x : α) (l : List α) :
    (insortBy lt x l).Perm (x :: l) := by
  induction l with
  | nil => exact List.Perm.refl _
  | cons y l ih =>
    by_cases h : lt y x = true
    · simp only [insortBy, h, if_true]
      exact (ih.cons y).trans (List.Perm.swap x y l)
    · simp only [insortBy, h, Bool.false_eq_true, if_false]
      exact List.Perm.refl _

/-- The insertion sort permutes its input. -/
theorem sortBy_perm (lt : α → α → Bool) (l : List α) : (sortBy lt l).Perm l := by
  induction l with
  | nil => exact List.Perm.refl _
  | cons x l ih => exact (insortBy_perm lt x (sortBy lt l)).trans (ih.cons x)

/-- Claim C5 (amended): for a non-empty field mapping with distinct,
separator-free keys (no backslash, space or `=` in a key) and
space-free values, re-parsing the keyword rendering as `key=value`
pairs split on unescaped spaces reconstructs the field set exactly (the
parse yields the sorted field list, a permutation of the mapping); a
value containing a space breaks the round-trip, see the
counterexample. -/
theorem c5_roundtrip (kw : List (String × String))
    (hne : kw ≠ [])
    (hnd : (kw.map Prod.fst).Nodup)
    (hkeys : ∀ p ∈ kw, ∀ c ∈ (Prod.fst p).data, c ≠ '\\' ∧ c ≠ ' ' ∧ c ≠ '=')
    (hvals : ∀ p ∈ kw, ∀ c ∈ (Prod.snd p).data, c ≠ ' ') :
    kwParse (kwRender kw) = sortPairs kw ∧ (sortPairs kw).Perm kw := by
  have hperm : (sortPairs kw).Perm kw := sortBy_perm _ kw
  refine ⟨?_, hperm⟩
  have hmemkw : ∀ p ∈ sortPairs kw, p ∈ kw := fun p hp => hperm.mem_iff.mp hp
  have hdata : (kwRender kw).data
      = joinSepC ' ' ((sortPairs kw).map fun p => p.1.data ++ '=' :: pgQuoteL p.2.data) := by
    show joinSepC ' '
        (((sortPairs kw).map fun p =>
          (⟨p.1.data ++ '=' :: pgQuoteL p.2.data⟩ : String)).map String.data) = _
    rw [List.map_map]
    rfl
  have hesc : ∀ t ∈ (sortPairs kw).map (fun p => p.1.data ++ '=' :: pgQuoteL p.2.data),
      EscTok t := by
    intro t ht
    rcases List.mem_map.mp ht with ⟨p, hp, rfl⟩
    refine escTok_token p.1.data p.2.data ?_ ?_
    · intro c hc
      exact ⟨(hkeys p (hmemkw p hp) c hc).1, (hkeys p (hmemkw p hp) c hc).2.1⟩
    · intro c hc
      exact hvals p (hmemkw p hp) c hc
  have hne2 : (sortPairs kw).map (fun p => p.1.data ++ '=' :: pgQuoteL p.2.data) ≠ [] := by
    intro h0
    have hsp : sortPairs kw = [] := by
      cases hx : sortPairs kw with
      | nil => rfl
      | cons a l => rw [hx] at h0; cases h0
    rw [hsp] at hperm
    exact hne (hperm.symm.eq_nil)
  show ((splitUnescSp (kwRender kw).data).map parsePairL) = sortPairs kw
  rw [hdata, splitSt_join _ hesc hne2, List.map_map]
  have : ∀ p ∈ sortPairs kw,
      (parsePairL ∘ fun p => p.1.data ++ '=' :: pgQuoteL p.2.data) p = id p := by
    intro p hp
    have hk : ∀ c ∈ p.1.data, c ≠ '=' := fun c hc => (hkeys p (hmemkw p hp) c hc).2.2
    show parsePairL (p.1.data ++ '=' :: pgQuoteL p.2.data) = p
    rw [parsePair_token p.1 p.2.data hk]
  rw [List.map_congr_left this, List.map_id]

/-- Witness for the amended C5: a mapping with escapes in its values
round-trips to its sorted field list. -/
theorem c5_roundtrip_witness :
    kwParse (kwRender [("host", "1.2.3.4"), ("password", "p'w\\d"), ("dbname", "mydb")])
      = [("dbname", "mydb"), ("host", "1.2.3.4"), ("password", "p'w\\d")] := by
  have h := c5_roundtrip [("host", "1.2.3.4"), ("password", "p'w\\d"), ("dbname", "mydb")]
    (by decide) (by decide) (by decide) (by decide)
  exact h.1.trans (by rfl)

/-! ### Dictionary transport lemmas for the URI rendering (C6) -/

/-- `lookup` on a cons cell, as an `if`. -/
theorem lookup_cons (k a b : String) (l : List (String × String)) :
    ((a, b) :: l).lookup k = if (k == a) = true then some b else l.lookup k := by
  by_cases hka : (k == a) = true
  · rw [if_pos hka]
    simp [List.lookup, hka]
  · rw [if_neg hka]
    simp only [Bool.not_eq_true] at hka
    simp [List.lookup, hka]

/-- Lookup through a value-only map. -/
theorem lookup_map_value (f : String → String) (l : List (String × String)) (k : String) :
    (l.map fun p => (p.1, f p.2)).lookup k = (l.lookup k).map f := by
  induction l with
  | nil => rfl
  | cons p l ih =>
    obtain ⟨k0, v0⟩ := p
    simp only [List.map_cons]
    rw [lookup_cons, lookup_cons]
    by_cases h : (k == k0) = true
    · rw [if_pos h, if_pos h]
      rfl
    · rw [if_neg h, if_neg h, ih]

/-- A present key makes `lookup` succeed. -/
theorem lookup_isSome_of_mem_keys (l : List (String × String)) (a : String)
    (h : a ∈ l.map Prod.fst) : (l.lookup a).isSome = true := by
  induction l with
  | nil => cases h
  | cons p l ih =>
    obtain ⟨k0, v0⟩ := p
    simp only [List.map_cons] at h
    rw [lookup_cons]
    by_cases hb : (a == k0) = true
    · rw [if_pos hb]
      rfl
    · rw [if_neg hb]
      rcases List.mem_cons.mp h with h1 | h1
      · exact absurd (show (a == k0) = true by simpa using h1) hb
      · exact ih h1

/-- In-place replacement leaves other keys' lookups unchanged. -/
theorem lookup_mapReplace_ne (k0 v k : String) (l : List (String × String)) (h : k ≠ k0) :
    (l.map fun p => if p.1 == k0 then (p.1, v) else p).lookup k = l.lookup k := by
  induction l with
  | nil => rfl
  | cons p l ih =>
    obtain ⟨a, b⟩ := p
    simp only [List.map_cons]
    by_cases hak : (a == k0) = true
    · have ha : a = k0 := by simpa using hak
      subst ha
      rw [show (if ((a, b).1 == a) = true then ((a, b).1, v) else (a, b)) = (a, v) from
        by simp]
      rw [lookup_cons, lookup_cons, if_neg (by simpa using h), if_neg (by simpa using h), ih]
    · rw [show (if ((a, b).1 == k0) = true then ((a, b).1, v) else (a, b)) = (a, b) from
        by simp [hak]]
      rw [lookup_cons, lookup_cons]
      by_cases hka : (k == a) = true
      · rw [if_pos hka, if_pos hka]
      · rw [if_neg hka, if_neg hka, ih]

/-- Appending a pair with a different key leaves a lookup unchanged. -/
theorem lookup_append_single_ne (k0 v k : String) (l : List (String × String)) (h : k ≠ k0) :
    (l ++ [(k0, v)]).lookup k = l.lookup k := by
  induction l with
  | nil =>
    simp only [List.nil_append]
    rw [lookup_cons, if_neg (by simpa using h)]
  | cons p l ih =>
    obtain ⟨a, b⟩ := p
    simp only [List.cons_append]
    rw [lookup_cons, lookup_cons]
    by_cases hka : (k == a) = true
    · rw [if_pos hka, if_pos hka]
    · rw [if_neg hka, if_neg hka, ih]

/-- `d[k] = v` leaves other keys' lookups unchanged. -/
theorem lookup_aListSet_ne (k0 v k : String) (l : List (String × String)) (h : k ≠ k0) :
    (aListSet k0 v l).lookup k = l.lookup k := by
  unfold aListSet
  by_cases hany : (l.any fun p => p.1 == k0) = true
  · rw [if_pos hany]
    exact lookup_mapReplace_ne k0 v k l h
  · rw [if_neg hany]
    exact lookup_append_single_ne k0 v k l h

/-- In-place replacement of a key that occurs resolves its lookup to
the new value. -/
theorem lookup_mapReplace_self (k0 v : String) :
    ∀ l : List (String × String), (l.any fun p => p.1 == k0) = true →
      (l.map fun p => if p.1 == k0 then (p.1, v) else p).lookup k0 = some v := by
  intro l
  induction l with
  | nil => intro hany; cases hany
  | cons p l ih =>
    intro hany
    obtain ⟨a, b⟩ := p
    simp only [List.map_cons]
    by_cases hak : (a == k0) = true
    · have ha : a = k0 := by simpa using hak
      subst ha
      rw [show (if ((a, b).1 == a) = true then ((a, b).1, v) else (a, b)) = (a, v) from
        by simp]
      rw [lookup_cons, if_pos (by simp)]
    · have hany2 : (l.any fun p => p.1 == k0) = true := by
        simp only [List.any_cons] at hany
        rcases Bool.or_eq_true_iff.mp hany with h3 | h3
        · exact absurd h3 hak
        · exact h3
      have hne : (k0 == a) = false := by
        have h1 : ¬ a = k0 := by simpa using hak
        simpa using fun he => h1 he.symm
      rw [show (if ((a, b).1 == k0) = true then ((a, b).1, v) else (a, b)) = (a, b) from
        by simp [hak]]
      rw [lookup_cons, if_neg (by simp [hne]), ih hany2]

/-- Appending a fresh key resolves its lookup to the appended value. -/
theorem lookup_append_single_self (k0 v : String) :
    ∀ l : List (String × String), (l.any fun p => p.1 == k0) = false →
      (l ++ [(k0, v)]).lookup k0 = some v := by
  intro l
  induction l with
  | nil =>
    intro h0
    simp only [List.nil_append]
    rw [lookup_cons, if_pos (by simp)]
  | cons p l ih =>
    intro hany
    obtain ⟨a, b⟩ := p
    simp only [List.any_cons, Bool.or_eq_false_iff] at hany
    have hne : (k0 == a) = false := by
      have h1 : ¬ a = k0 := by simpa using hany.1
      simpa using fun he => h1 he.symm
    simp only [List.cons_append]
    rw [lookup_cons, if_neg (by simp [hne])]
    exact ih hany.2

/-- After `d[k] = v`, looking up `k` yields `v`. -/
theorem lookup_aListSet_self (k0 v : String) (l : List (String × String)) :
    (aListSet k0 v l).lookup k0 = some v := by
  unfold aListSet
  by_cases hany : (l.any fun p => p.1 == k0) = true
  · rw [if_pos hany]
    exact lookup_mapReplace_self k0 v l hany
  · rw [if_neg hany]
    rw [Bool.not_eq_true] at hany
    exact lookup_append_single_self k0 v l hany

/-- `del d[k0]` leaves other keys' lookups unchanged. -/
theorem lookup_aListErase_ne (k0 k : String) (l : List (String × String)) (h : k ≠ k0) :
    (aListErase k0 l).lookup k = l.lookup k := by
  unfold aListErase
  induction l with
  | nil => rfl
  | cons p l ih =>
    obtain ⟨a, b⟩ := p
    by_cases hak : ((a, b).1 != k0) = true
    · rw [List.filter_cons, if_pos hak]
      rw [lookup_cons, lookup_cons]
      by_cases hka : (k == a) = true
      · rw [if_pos hka, if_pos hka]
      · rw [if_neg hka, if_neg hka, ih]
    · have ha : a = k0 := by simpa using hak
      subst ha
      rw [List.filter_cons, if_neg hak, lookup_cons, if_neg (by simpa using h), ih]

/-- Components other than the host read their percent-encoded value
straight from the keyword arguments. -/
theorem uriDict_lookup_ne (kw : List (String × String)) (k : String)
    (h1 : k ≠ "host") (h2 : k ≠ "hostaddr") :
    (uriDict kw).lookup k = (kw.lookup k).map pctQuote := by
  unfold uriDict
  by_cases hh : (kw.lookup "host").isSome = true
  · rw [if_pos hh, lookup_aListErase_ne "host" k _ h1, lookup_aListSet_ne "hostaddr" _ k _ h2,
      lookup_map_value]
  · rw [if_neg hh, lookup_map_value]

/-- When `host` is present, the dict's `hostaddr` entry is the host
component. -/
theorem uriDict_lookup_hostaddr (kw : List (String × String))
    (hh : (kw.lookup "host").isSome = true) :
    (uriDict kw).lookup "hostaddr" = some (hostComponent kw) := by
  unfold uriDict
  rw [if_pos hh, lookup_aListErase_ne "host" "hostaddr" _ (by decide),
    lookup_aListSet_self]

/-! ### No bracket outside an IPv6 host component (C6) -/

/-- Characters of a `sep`-join come from the separator or a piece. -/
theorem mem_joinSepC (sep : Char) :
    ∀ (ls : List (List Char)) (c : Char), c ∈ joinSepC sep ls → c = sep ∨ ∃ l ∈ ls, c ∈ l := by
  intro ls
  induction ls with
  | nil => intro c hc; cases hc
  | cons t rest ih =>
    intro c hc
    cases rest with
    | nil => exact Or.inr ⟨t, by simp, hc⟩
    | cons t2 rest2 =>
      have hc2 : c ∈ t ++ sep :: joinSepC sep (t2 :: rest2) := hc
      rcases List.mem_append.mp hc2 with h | h
      · exact Or.inr ⟨t, by simp, h⟩
      · rcases List.mem_cons.mp h with h | h
        · exact Or.inl h
        · rcases ih c h with h | ⟨l, hl, hcl⟩
          · exact Or.inl h
          · exact Or.inr ⟨l, List.mem_cons_of_mem t hl, hcl⟩

/-- Decimal digits are never `[`. -/
theorem decDigit_ne_lbrack (d : Nat) : decDigit d ≠ '[' := by
  unfold decDigit
  split <;> decide

/-- Characters of the fuelled decimal rendering are digits or come from
the accumulator. -/
theorem mem_natDecCharsFuel :
    ∀ (fuel n : Nat) (acc : List Char) (c : Char),
      c ∈ natDecCharsFuel fuel n acc → (∃ d, c = decDigit d) ∨ c ∈ acc := by
  intro fuel
  induction fuel with
  | zero => intro n acc c hc; exact Or.inr hc
  | succ fuel ih =>
    intro n acc c hc
    simp only [natDecCharsFuel] at hc
    by_cases h : n < 10
    · rw [if_pos h] at hc
      rcases List.mem_cons.mp hc with h1 | h1
      · exact Or.inl ⟨n, h1⟩
      · exact Or.inr h1
    · rw [if_neg h] at hc
      rcases ih (n / 10) _ c hc with h1 | h1
      · exact Or.inl h1
      · rcases List.mem_cons.mp h1 with h2 | h2
        · exact Or.inl ⟨n % 10, h2⟩
        · exact Or.inr h2

/-- A dotted-quad rendering never contains `[`. -/
theorem ipv4Str_ne_lbrack (n : Nat) (c : Char) (hc : c ∈ (ipv4Str n).data) : c ≠ '[' := by
  have hc2 : c ∈ joinSepC '.'
      ((([(n >>> 24) &&& 255, (n >>> 16) &&& 255, (n >>> 8) &&& 255, n &&& 255].map
        fun b => (⟨natDecChars b⟩ : String)).map String.data)) := hc
  rcases mem_joinSepC '.' _ c hc2 with h | ⟨l, hl, hcl⟩
  · subst h; decide
  · rcases List.mem_map.mp hl with ⟨s, hs, rfl⟩
    rcases List.mem_map.mp hs with ⟨x, hx, rfl⟩
    rcases mem_natDecCharsFuel _ _ _ c hcl with ⟨d, rfl⟩ | h0
    · exact decDigit_ne_lbrack d
    · cases h0

/-- Safe bytes re-encode to characters other than `[` (the bracket,
byte 91, is not in the safe set). -/
theorem ofNat_safe_ne_lbrack (b : Nat) (h : safeByte b = true) : Char.ofNat b ≠ '[' := by
  have hb : b ≤ 126 := by
    simp only [safeByte, Bool.or_eq_true, Bool.and_eq_true, decide_eq_true_eq,
      beq_iff_eq] at h
    omega
  interval_cases b <;> revert h <;> decide

/-- Uppercase hex digits are never `[`. -/
theorem hexDigitUC_ne_lbrack (n : Nat) : hexDigitUC n ≠ '[' := by
  unfold hexDigitUC
  split <;> decide

/-- A percent-encoded string never contains `[`. -/
theorem pct_ne_lbrack (s : List Char) (c : Char) (hc : c ∈ pctQuoteL s) : c ≠ '[' := by
  rcases List.mem_flatMap.mp hc with ⟨b, _, hcb⟩
  unfold pctByte at hcb
  by_cases hsafe : safeByte b = true
  · rw [if_pos hsafe] at hcb
    rcases List.mem_singleton.mp hcb with rfl
    exact ofNat_safe_ne_lbrack b hsafe
  · rw [if_neg hsafe] at hcb
    rcases List.mem_cons.mp hcb with rfl | h1
    · decide
    · rcases List.mem_cons.mp h1 with rfl | h2
      · exact hexDigitUC_ne_lbrack _
      · rcases List.mem_singleton.mp h2 with rfl
        exact hexDigitUC_ne_lbrack _

/-- The host component is bracketed exactly when `hostaddr or host`
parses as an IPv6 literal. -/
theorem hostComponent_bracket_iff (kw : List (String × String)) :
    (∃ t, hostComponent kw = "[" ++ t ++ "]")
      ↔ ∃ n, ipAddressParse (hostArg kw) = some (.v6 n) := by
  constructor
  · rintro ⟨t, ht⟩
    cases hp : ipAddressParse (hostArg kw) with
    | none =>
      unfold hostComponent at ht
      rw [hp] at ht
      have ht2 : pctQuote ((kw.lookup "host").getD "") = "[" ++ t ++ "]" := ht
      have hmem : '[' ∈ pctQuoteL ((kw.lookup "host").getD "").data := by
        show '[' ∈ (pctQuote ((kw.lookup "host").getD "")).data
        rw [ht2]
        show '[' ∈ '[' :: (t.data ++ [']'])
        exact List.mem_cons_self _ _
      exact absurd rfl (pct_ne_lbrack _ '[' hmem)
    | some a =>
      cases a with
      | v6 n => exact ⟨n, rfl⟩
      | v4 n =>
        unfold hostComponent at ht
        rw [hp] at ht
        have ht2 : ipv4Str n = "[" ++ t ++ "]" := ht
        have hmem : '[' ∈ (ipv4Str n).data := by
          rw [ht2]
          show '[' ∈ '[' :: (t.data ++ [']'])
          exact List.mem_cons_self _ _
        exact absurd rfl (ipv4Str_ne_lbrack n '[' hmem)
  · rintro ⟨n, hp⟩
    refine ⟨ipv6Str n, ?_⟩
    unfold hostComponent
    rw [hp]

/-- Keys of the URI dict other than `hostaddr` come from the keyword
arguments, and `host` is never among them. -/
theorem mem_keys_uriDict (kw : List (String × String)) (k : String)
    (hk : k ∈ (uriDict kw).map Prod.fst) (hne : k ≠ "hostaddr") :
    k ∈ kw.map Prod.fst ∧ k ≠ "host" := by
  unfold uriDict at hk
  by_cases hh : ((kw.lookup "host").isSome) = true
  · rw [if_pos hh] at hk
    rcases List.mem_map.mp hk with ⟨p, hp, rfl⟩
    unfold aListErase at hp
    rcases List.mem_filter.mp hp with ⟨hpset, hpne⟩
    have hknh : p.1 ≠ "host" := by simpa using hpne
    refine ⟨?_, hknh⟩
    unfold aListSet at hpset
    by_cases hany :
        ((kw.map fun q => (q.1, pctQuote q.2)).any fun q => q.1 == "hostaddr") = true
    · rw [if_pos hany] at hpset
      rcases List.mem_map.mp hpset with ⟨q, hq, hpq⟩
      rcases List.mem_map.mp hq with ⟨r, hr, rfl⟩
      have hfst : p.1 = r.1 := by
        by_cases hb : ((r.1, pctQuote r.2).1 == "hostaddr") = true
        · rw [← hpq]
          simp [hb]
        · rw [← hpq]
          simp [hb]
      rw [hfst]
      exact List.mem_map.mpr ⟨r, hr, rfl⟩
    · rw [if_neg hany] at hpset
      rcases List.mem_append.mp hpset with h1 | h1
      · rcases List.mem_map.mp h1 with ⟨r, hr, rfl⟩
        exact List.mem_map.mpr ⟨r, hr, rfl⟩
      · have hps := List.mem_singleton.mp h1
        exact absurd (congrArg Prod.fst hps) hne
  · rw [if_neg hh] at hk
    rcases List.mem_map.mp hk with ⟨p, hp, rfl⟩
    rcases List.mem_map.mp hp with ⟨r, hr, rfl⟩
    refine ⟨List.mem_map.mpr ⟨r, hr, rfl⟩, ?_⟩
    intro h0
    have hmem : r.1 ∈ kw.map Prod.fst := List.mem_map.mpr ⟨r, hr, rfl⟩
    rw [show ((r.1, pctQuote r.2).1) = r.1 from rfl] at h0
    rw [h0] at hmem
    exact hh (lookup_isSome_of_mem_keys kw "host" hmem)

/-- The URI's extra query keys are exactly keyword-argument keys that
are neither the host selector nor one of the five main components. -/
theorem uriExtraKeys_spec (kw : List (String × String)) :
    ∀ k ∈ uriExtraKeys kw, k ∈ kw.map Prod.fst ∧ k ≠ "host" ∧ ¬ k ∈ uriMainKeys := by
  intro k hk
  unfold uriExtraKeys at hk
  rcases List.mem_filter.mp hk with ⟨hks, hnm⟩
  have hmain : ¬ k ∈ uriMainKeys := of_decide_eq_true hnm
  have hsort : k ∈ (uriDict kw).map Prod.fst := (sortBy_perm strLtB _).mem_iff.mp hks
  have hna : k ≠ "hostaddr" := fun he => hmain (by rw [he]; decide)
  obtain ⟨hkw, hkh⟩ := mem_keys_uriDict kw k hsort hna
  exact ⟨hkw, hkh, hmain⟩

/-- Claim C6 (amended): the URI decomposes into percent-encoded
components, with the host component present only when `host` is among
the keyword arguments (a `hostaddr` without `host` is dropped, see the
counterexample), computed from the IP parse of `hostaddr or host`, and
bracketed exactly when that value parses as an IPv6 literal; every
other component value, including every extra query value, is
percent-encoded with no safe characters. -/
theorem c6_uri_structure (kw : List (String × String)) :
    (uriRender kw
        = "postgresql://"
          ++ (match (kw.lookup "user").map pctQuote, (kw.lookup "password").map pctQuote with
              | some u, some pw => u ++ ":" ++ pw ++ "@"
              | some u, none => u ++ "@"
              | none, _ => "")
          ++ (if (kw.lookup "host").isSome then hostComponent kw else "")
          ++ (match (kw.lookup "port").map pctQuote with
              | some p => ":" ++ p
              | none => "")
          ++ (match (kw.lookup "dbname").map pctQuote with
              | some db => "/" ++ db
              | none => "")
          ++ (match uriExtraKeys kw with
              | [] => ""
              | ks => "?" ++ strJoinSep '&'
                  (ks.map fun k2 => k2 ++ "=" ++ pctQuote ((kw.lookup k2).getD ""))))
    ∧ ((∃ t, hostComponent kw = "[" ++ t ++ "]")
        ↔ ∃ n, ipAddressParse (hostArg kw) = some (.v6 n))
    ∧ (∀ k ∈ uriExtraKeys kw, k ∈ kw.map Prod.fst ∧ k ≠ "host" ∧ ¬ k ∈ uriMainKeys) := by
  refine ⟨?_, hostComponent_bracket_iff kw, uriExtraKeys_spec kw⟩
  have hhost : (if (kw.lookup "host").isSome then ((uriDict kw).lookup "hostaddr").getD ""
        else "")
      = (if (kw.lookup "host").isSome then hostComponent kw else "") := by
    by_cases hh : (kw.lookup "host").isSome = true
    · rw [if_pos hh, if_pos hh, uriDict_lookup_hostaddr kw hh]
      rfl
    · rw [Bool.not_eq_true] at hh
      rw [hh]
      simp
  have hex : (match uriExtraKeys kw with
          | [] => ""
          | ks => "?" ++ strJoinSep '&'
              (ks.map fun k2 => k2 ++ "=" ++ ((uriDict kw).lookup k2).getD ""))
      = (match uriExtraKeys kw with
          | [] => ""
          | ks => "?" ++ strJoinSep '&'
              (ks.map fun k2 => k2 ++ "=" ++ pctQuote ((kw.lookup k2).getD ""))) := by
    have hmap : ∀ ks : List String, (∀ k2 ∈ ks, k2 ∈ uriExtraKeys kw) →
        ks.map (fun k2 => k2 ++ "=" ++ ((uriDict kw).lookup k2).getD "")
          = ks.map (fun k2 => k2 ++ "=" ++ pctQuote ((kw.lookup k2).getD "")) := by
      intro ks hks
      apply List.map_congr_left
      intro k2 hk2
      obtain ⟨-, hkh, hkm⟩ := uriExtraKeys_spec kw k2 (hks k2 hk2)
      have h2 : k2 ≠ "hostaddr" := fun he => hkm (by rw [he]; decide)
      rw [uriDict_lookup_ne kw k2 hkh h2]
      cases kw.lookup k2 with
      | none => rfl
      | some v => rfl
    cases hke : uriExtraKeys kw with
    | nil => rfl
    | cons k0 ks0 =>
      have hm := hmap (k0 :: ks0) (fun k2 hk2 => hke ▸ hk2)
      show "?" ++ strJoinSep '&'
            ((k0 :: ks0).map fun k2 => k2 ++ "=" ++ ((uriDict kw).lookup k2).getD "")
          = "?" ++ strJoinSep '&'
            ((k0 :: ks0).map fun k2 => k2 ++ "=" ++ pctQuote ((kw.lookup k2).getD ""))
      rw [hm]
  simp only [uriRender]
  rw [uriDict_lookup_ne kw "user" (by decide) (by decide),
    uriDict_lookup_ne kw "password" (by decide) (by decide),
    uriDict_lookup_ne kw "port" (by decide) (by decide),
    uriDict_lookup_ne kw "dbname" (by decide) (by decide), hhost, hex]

end PgsqlRequires
